import Mathlib

/-!
# Verification of the nekoton-wasm ABI layer (`src/lib.rs`)

A shallow embedding of the wasm-bindgen entry points of `src/lib.rs` and of
the parts of their behaviour fixed by the specification.  The crate is a thin
wrapper: the ABI codec itself lives in the external `nt_abi`/`ton_abi`
crates, the cell-tree serializer in `ton_types`, and the helper modules
(`utils`, `tokens_object`, `models`) are not part of the published source.
Whatever is visible in `src/lib.rs` (control flow, filters, error paths,
fallback order) is embedded from the source; the missing collaborators are
modelled from the specification and marked as such in their doc comments.

Conventions: machine integers are `Nat` with explicit `% 2 ^ w` where
overflow matters; cell slices are bit lists (`Bits`); fallible operations
return `Except AbiError` or `Option`.
-/

namespace NekotonWasm

/-! ## Bit streams -/

/-- A cell slice, abstracted to its bit content (the cell-tree structure is
an opaque external collaborator). -/
abbrev Bits := List Bool

/-- Big-endian fixed-width encoding of a natural number: `w` bits, most
significant first. -/
def natToBits : Nat → Nat → Bits
  | 0, _ => []
  | w + 1, n => natToBits w (n / 2) ++ [n % 2 == 1]

/-- Big-endian interpretation of a bit string. -/
def bitsToNat (bs : Bits) : Nat :=
  bs.foldl (fun a b => 2 * a + (if b then 1 else 0)) 0

/-- Read `n` bits off the front of a slice, failing (`CellUnderflow`) when
fewer remain. -/
def readBits (n : Nat) (bs : Bits) : Option (Bits × Bits) :=
  if n ≤ bs.length then some (bs.take n, bs.drop n) else none

/-! ## Token values (`ton_abi::TokenValue`)

Modelled from the spec: the ABI argument representation and its binary
serialization live in the external `ton_abi`/`nt_abi` crates.  The spec
describes a tagged union (integers of declared width as fixed-width
two's-complement / unsigned big-endian bit fields, booleans, tuples of
fields serialized in order) plus the fixed header values `time` (64-bit
millis), `expire` (32-bit seconds) and an optional 256-bit public key.  We
model that representative fragment. -/

inductive ParamType where
  | uint (w : Nat)
  | int (w : Nat)
  | bool
  | tuple (ts : List ParamType)

inductive TokenValue where
  | uintV (w : Nat) (v : Nat)
  | intV (w : Nat) (v : Int)
  | boolV (b : Bool)
  | tupleV (vs : List TokenValue)
  | timeV (v : Nat)
  | expireV (v : Nat)
  | pubkeyV (k : Option Nat)

mutual

/-- A value fits its declared parameter type: matching tag and in-range
payload (the spec's validity notion for encode). -/
def validToken : TokenValue → ParamType → Bool
  | .uintV w v, .uint w' => w == w' && decide (v < 2 ^ w)
  | .intV w v, .int w' =>
    w == w' && decide (0 < w) && decide (-(2 ^ (w - 1) : Int) ≤ v)
      && decide (v < (2 ^ (w - 1) : Int))
  | .boolV _, .bool => true
  | .tupleV vs, .tuple ts => validTokens vs ts
  | _, _ => false

/-- Pointwise validity of an argument list against a parameter-type list. -/
def validTokens : List TokenValue → List ParamType → Bool
  | [], [] => true
  | v :: vs, t :: ts => validToken v t && validTokens vs ts
  | _, _ => false

end

mutual

/-- Modelled from the spec: serialization of one token value to bits
(unsigned big-endian bit field; signed two's complement via `% 2 ^ w`;
tuples field by field; optional public key as a maybe-bit). -/
def encodeToken : TokenValue → Bits
  | .uintV w v => natToBits w v
  | .intV w v => natToBits w (v % (2 ^ w : Nat)).toNat
  | .boolV b => [b]
  | .tupleV vs => encodeTokens vs
  | .timeV v => natToBits 64 v
  | .expireV v => natToBits 32 v
  | .pubkeyV none => [false]
  | .pubkeyV (some k) => true :: natToBits 256 k

/-- Serialization of an argument list, element by element. -/
def encodeTokens : List TokenValue → Bits
  | [] => []
  | v :: vs => encodeToken v ++ encodeTokens vs

end

/-- Two's-complement reading of a `w`-bit field. -/
def decodeIntField (w n : Nat) : Int :=
  if n < 2 ^ (w - 1) then (n : Int) else (n : Int) - (2 ^ w : Nat)

mutual

/-- Modelled from the spec: deserialization of one value of a declared
parameter type from the front of a slice (`CellUnderflow` on short input). -/
def decodeToken : ParamType → Bits → Option (TokenValue × Bits)
  | .uint w, bs => (readBits w bs).map fun p => (.uintV w (bitsToNat p.1), p.2)
  | .int w, bs => (readBits w bs).map fun p => (.intV w (decodeIntField w (bitsToNat p.1)), p.2)
  | .bool, bs =>
    match bs with
    | b :: rest => some (.boolV b, rest)
    | [] => none
  | .tuple ts, bs => (decodeTokens ts bs).map fun p => (.tupleV p.1, p.2)

/-- Deserialization of a list of declared parameter types, in order. -/
def decodeTokens : List ParamType → Bits → Option (List TokenValue × Bits)
  | [], bs => some ([], bs)
  | t :: ts, bs =>
    match decodeToken t bs with
    | none => none
    | some (v, bs') =>
      match decodeTokens ts bs' with
      | none => none
      | some (vs, bs'') => some (v :: vs, bs'')

end

/-! ## Contract ABI model (`ton_abi::Contract`, `Function`, `Event`)

Modelled from the spec: a parsed contract descriptor holds ordered function
signatures (input/output parameter lists, numeric input and output
selectors), event signatures, and the fixed header schema; lookup by name is
authoritative and lookup by selector is used for guessing. -/

structure Param where
  name : String
  ty : ParamType

structure FunctionAbi where
  name : String
  inputs : List Param
  outputs : List Param
  input_id : Nat
  output_id : Nat

structure EventAbi where
  name : String
  inputs : List Param
  id : Nat

structure ContractAbi where
  functions : List FunctionAbi
  events : List EventAbi

/-- Declared input parameter types of a function signature. -/
def FunctionAbi.inputTypes (f : FunctionAbi) : List ParamType := f.inputs.map (·.ty)

/-- Declared output parameter types of a function signature. -/
def FunctionAbi.outputTypes (f : FunctionAbi) : List ParamType := f.outputs.map (·.ty)

/-- Declared data parameter types of an event signature. -/
def EventAbi.inputTypes (e : EventAbi) : List ParamType := e.inputs.map (·.ty)

/-- `Contract::function`: lookup by name (authoritative, first match). -/
def ContractAbi.functionByName (abi : ContractAbi) (name : String) : Option FunctionAbi :=
  abi.functions.find? (·.name == name)

/-- `Contract::event_by_id`: lookup of an event by its selector. -/
def ContractAbi.eventById (abi : ContractAbi) (id : Nat) : Option EventAbi :=
  abi.events.find? (·.id == id)

/-- The header map built by the callers in `src/lib.rs`: an association of
header-field names to header token values. -/
abbrev HeaderMap := List (String × TokenValue)

/-- Modelled from the spec: serialization of the fixed header schema
{`time`: 64-bit millis, `expire`: 32-bit seconds, `pubkey`: optional
256-bit key as a maybe-bit}, in that order, failing when a required header
value is absent or mistagged. -/
def headerBits (h : HeaderMap) : Option Bits :=
  match h.lookup "time", h.lookup "expire", h.lookup "pubkey" with
  | some (.timeV t), some (.expireV e), some (.pubkeyV none) =>
    some (natToBits 64 t ++ natToBits 32 e ++ [false])
  | some (.timeV t), some (.expireV e), some (.pubkeyV (some k)) =>
    some (natToBits 64 t ++ natToBits 32 e ++ (true :: natToBits 256 k))
  | _, _, _ => none

/-- Modelled from the spec (`Function::encode_input` in `ton_abi`): an
internal body is selector then arguments; an external body carries a
signature slot (an empty one-bit slot when no signature is supplied) and
the serialized headers ahead of the selector. -/
def encodeInputBody (f : FunctionAbi) (h : HeaderMap) (args : List TokenValue)
    (internal : Bool) (signature : Option Bits) : Option Bits :=
  if internal then
    some (natToBits 32 f.input_id ++ encodeTokens args)
  else do
    let hb ← headerBits h
    let sigBits := match signature with
      | none => [false]
      | some s => true :: s
    pure (sigBits ++ hb ++ natToBits 32 f.input_id ++ encodeTokens args)

/-- Skip a maybe-slot: one presence bit, then `n` payload bits when set. -/
def skipMaybeBits (n : Nat) (bs : Bits) : Option Bits :=
  match bs with
  | false :: rest => some rest
  | true :: rest => (readBits n rest).map (·.2)
  | [] => none

/-- Modelled from the spec: skipping the signature slot and the fixed
header fields at the front of an external inbound body. -/
def skipExternalPrefix (bs : Bits) : Option Bits :=
  match skipMaybeBits 512 bs with
  | none => none
  | some rest =>
    match readBits 64 rest with
    | none => none
    | some (_, rest) =>
      match readBits 32 rest with
      | none => none
      | some (_, rest) => skipMaybeBits 256 rest

/-- Modelled from the spec: the common decode step — require the leading
32-bit selector to equal the expected one, decode the declared parameters
and require the body to be fully consumed. -/
def decodeBodyTokens (id : Nat) (tys : List ParamType) (rest : Bits) :
    Option (List TokenValue) :=
  match readBits 32 rest with
  | none => none
  | some (idBits, rest) =>
    if bitsToNat idBits == id then
      match decodeTokens tys rest with
      | some (vs, []) => some vs
      | _ => none
    else none

/-- Modelled from the spec (`Function::decode_input`): strip the external
prefix when the body is external, then decode against the input selector
and the declared inputs. -/
def functionDecodeInput (f : FunctionAbi) (body : Bits) (internal : Bool) :
    Option (List TokenValue) :=
  match (if internal then some body else skipExternalPrefix body) with
  | none => none
  | some rest => decodeBodyTokens f.input_id f.inputTypes rest

/-- Modelled from the spec (`Function::decode_output`): leading 32-bit
output selector, then the declared outputs, fully consuming the body. -/
def functionDecodeOutput (f : FunctionAbi) (body : Bits) : Option (List TokenValue) :=
  decodeBodyTokens f.output_id f.outputTypes body

/-- Modelled from the spec (`Event::decode_input` in `ton_abi`): leading
32-bit event selector, then the declared data parameters, fully consuming
the body. -/
def eventDecodeInput (ev : EventAbi) (body : Bits) : Option (List TokenValue) :=
  decodeBodyTokens ev.id ev.inputTypes body

/-- `nt_abi::read_function_id`: the leading 32-bit selector of a body. -/
def readFunctionId (body : Bits) : Option Nat :=
  (readBits 32 body).map fun p => bitsToNat p.1

/-! ## Errors and host-boundary decoding -/

/-- Modelled from the spec: decode failure of the `hex` collaborator
(invalid digit, or an odd number of digits). -/
inductive HexError where
  | invalidChar (c : Char)
  | oddLength
  deriving Repr, DecidableEq

/-- Modelled from the spec: decode failure of the `base64` collaborator. -/
inductive B64Error where
  | invalidByte (c : Char)
  | invalidLength
  deriving Repr, DecidableEq

/-- The typed errors surfaced through `handle_error` by `src/lib.rs`. -/
inductive AbiError where
  | objectExpected
  | messageExpected
  | arrayExpected
  | messageBodyExpected
  | reflectTypeError
  | invalidBase64 (e : B64Error)
  | invalidHex (e : HexError)
  | invalidDataHashLength
  | invalidSignatureLength
  | invalidPublicKey
  | functionNotFound
  | typeMismatch
  | cellUnderflow
  | invalidInput
  | outputNotFound
  | encodeFailed
  deriving Repr, DecidableEq

/-- Value of a hexadecimal digit. -/
def hexVal? (c : Char) : Option Nat :=
  if '0' ≤ c ∧ c ≤ '9' then some (c.toNat - '0'.toNat)
  else if 'a' ≤ c ∧ c ≤ 'f' then some (c.toNat - 'a'.toNat + 10)
  else if 'A' ≤ c ∧ c ≤ 'F' then some (c.toNat - 'A'.toNat + 10)
  else none

/-- Pairwise hex decoding of a character list (even length already
checked). -/
def hexPairs : List Char → Except HexError (List Nat)
  | [] => .ok []
  | [c] => .error (.invalidChar c)
  | c1 :: c2 :: cs =>
    match hexVal? c1 with
    | none => .error (.invalidChar c1)
    | some h =>
      match hexVal? c2 with
      | none => .error (.invalidChar c2)
      | some l =>
        match hexPairs cs with
        | .error e => .error e
        | .ok bs => .ok ((16 * h + l) :: bs)

/-- Modelled from the spec: the `hex::decode` collaborator — bytes from an
even-length string of hex digits. -/
def hexDecode (s : String) : Except HexError (List Nat) :=
  if s.length % 2 == 1 then .error .oddLength else hexPairs s.data

/-- Value of a base-64 alphabet character. -/
def b64Val? (c : Char) : Option Nat :=
  if 'A' ≤ c ∧ c ≤ 'Z' then some (c.toNat - 'A'.toNat)
  else if 'a' ≤ c ∧ c ≤ 'z' then some (c.toNat - 'a'.toNat + 26)
  else if '0' ≤ c ∧ c ≤ '9' then some (c.toNat - '0'.toNat + 52)
  else if c = '+' then some 62
  else if c = '/' then some 63
  else none

/-- Sextet values of the base-64 payload characters. -/
def b64Sextets : List Char → Except B64Error (List Nat)
  | [] => .ok []
  | c :: cs =>
    match b64Val? c with
    | none => .error (.invalidByte c)
    | some v =>
      match b64Sextets cs with
      | .error e => .error e
      | .ok vs => .ok (v :: vs)

/-- Bytes from groups of sextets (final group of 2 or 3 sextets yields 1 or
2 bytes). -/
def b64Bytes : List Nat → List Nat
  | a :: b :: c :: d :: rest =>
    (a * 4 + b / 16) :: ((b % 16) * 16 + c / 4) :: ((c % 4) * 64 + d) :: b64Bytes rest
  | [a, b] => [a * 4 + b / 16]
  | [a, b, c] => [a * 4 + b / 16, (b % 16) * 16 + c / 4]
  | _ => []

/-- Modelled from the spec: the `base64::decode` collaborator — strip
trailing padding, map the payload characters to sextets, reject a payload
of length `≡ 1 (mod 4)`, and repack the sextets into bytes. -/
def base64Decode (s : String) : Except B64Error (List Nat) :=
  let payload := (s.data.reverse.dropWhile (· = '=')).reverse
  match b64Sextets payload with
  | .error e => .error e
  | .ok vs => if vs.length % 4 == 1 then .error .invalidLength else .ok (b64Bytes vs)

/-- The bit content of a byte string, each byte big-endian. -/
def bytesToBits : List Nat → Bits
  | [] => []
  | b :: bs => natToBits 8 b ++ bytesToBits bs

/-- Modelled from the spec: `parse_slice` (in the crate's absent `utils`
module) decodes a base-64 message-body string into a cell slice; the cell
tree itself is opaque, so the slice is modelled as the bytes' bit
content. -/
def parseSlice (s : String) : Except AbiError Bits :=
  match base64Decode s with
  | .ok bytes => .ok (bytesToBits bytes)
  | .error e => .error (.invalidBase64 e)

/-! ## `nt_abi` decode and guess operations

Modelled from the spec (§4.4): candidates are the declared functions
admitted by the caller's hint whose input selector equals the body's
leading selector; they are tried in declaration order and the first whose
full body decodes wins; zero candidates or no full decode is a first-class
"no match" (`none`), never an error. -/

/-- The caller's method hint (`parse_method_name` accepts one name or an
array of names). -/
inductive MethodName where
  | known (name : String)
  | guessInRange (names : List String)

/-- The declared functions admitted by a hint, in declaration order. -/
def hintFilter (hint : MethodName) (fs : List FunctionAbi) : List FunctionAbi :=
  match hint with
  | .known n => fs.filter (·.name == n)
  | .guessInRange ns => fs.filter (fun f => ns.contains f.name)

/-- The declared events admitted by a hint, in declaration order. -/
def eventHintFilter (hint : MethodName) (evs : List EventAbi) : List EventAbi :=
  match hint with
  | .known n => evs.filter (·.name == n)
  | .guessInRange ns => evs.filter (fun e => ns.contains e.name)

/-- The leading input selector of a body, past the external prefix when the
body is external. -/
def readInputFunctionId (body : Bits) (internal : Bool) : Option Nat :=
  if internal then readFunctionId body
  else (skipExternalPrefix body).bind readFunctionId

/-- Modelled from the spec: `nt_abi::guess_method_by_input`. -/
def guessMethodByInput (abi : ContractAbi) (body : Bits) (hint : MethodName)
    (internal : Bool) : Except AbiError (Option FunctionAbi) :=
  match readInputFunctionId body internal with
  | none => .error .cellUnderflow
  | some sel =>
    .ok (((hintFilter hint abi.functions).filter (·.input_id == sel)).find?
      (fun f => (functionDecodeInput f body internal).isSome))

/-- Modelled from the spec: `nt_abi::decode_input` — guess the method, then
decode its inputs; absence of a match is `none`. -/
def ntDecodeInput (abi : ContractAbi) (body : Bits) (hint : MethodName)
    (internal : Bool) : Except AbiError (Option (FunctionAbi × List TokenValue)) :=
  match guessMethodByInput abi body hint internal with
  | .error e => .error e
  | .ok none => .ok none
  | .ok (some f) =>
    match functionDecodeInput f body internal with
    | some vs => .ok (some (f, vs))
    | none => .error .invalidInput

/-- Modelled from the spec: `nt_abi::decode_event` — the first declared
event admitted by the hint whose data decodes from the body; no match is
`none`. -/
def ntDecodeEvent (abi : ContractAbi) (body : Bits) (hint : MethodName) :
    Except AbiError (Option (EventAbi × List TokenValue)) :=
  .ok ((eventHintFilter hint abi.events).findSome? fun ev =>
    (eventDecodeInput ev body).map (fun d => (ev, d)))

/-- Modelled from the spec: `nt_abi::decode_output` — the first declared
function admitted by the hint whose outputs decode from the body; no match
is `none`. -/
def ntDecodeOutput (abi : ContractAbi) (body : Bits) (hint : MethodName) :
    Except AbiError (Option (FunctionAbi × List TokenValue)) :=
  .ok ((hintFilter hint abi.functions).findSome? fun f =>
    (functionDecodeOutput f body).map (fun d => (f, d)))

/-- Modelled from the spec: `nt_abi::process_raw_outputs` — the first
external outbound body that decodes against the chosen function's output
selector supplies the output arguments; with no such body the output is
empty when the function declares no outputs and `OutputNotFound`
otherwise. -/
def processRawOutputs (bodies : List Bits) (f : FunctionAbi) :
    Except AbiError (List TokenValue) :=
  match bodies.findSome? (functionDecodeOutput f) with
  | some vs => .ok vs
  | none => if f.outputs.isEmpty then .ok [] else .error .outputNotFound

/-! ## Host value model (`wasm_bindgen::JsValue` / `js_sys`)

The transaction argument of `decodeTransaction` and
`decodeTransactionEvents` is an untyped host object inspected through
`Reflect::get`, `is_object`, `is_string`, `as_string` and
`Array::is_array`.  We model the fragment of host values those calls can
observe. -/

inductive JVal where
  | null
  | str (s : String)
  | obj (fields : List (String × JVal))
  | arr (elems : List JVal)

/-- `JsValue::is_object` (arrays are objects in the host language). -/
def JVal.isObject : JVal → Bool
  | .obj _ => true
  | .arr _ => true
  | _ => false

/-- `JsValue::is_string`. -/
def JVal.isString : JVal → Bool
  | .str _ => true
  | _ => false

/-- `JsValue::as_string`. -/
def JVal.asString : JVal → Option String
  | .str s => some s
  | _ => none

/-- `js_sys::Array::is_array`. -/
def JVal.isArray : JVal → Bool
  | .arr _ => true
  | _ => false

/-- `js_sys::Reflect::get`: a missing property reads as an absent value;
reading a property of a non-object is a host type error. -/
def jsGet (v : JVal) (key : String) : Except AbiError JVal :=
  match v with
  | .obj fields =>
    match fields.lookup key with
    | some x => .ok x
    | none => .ok .null
  | .arr _ => .ok .null
  | _ => .error .reflectTypeError

/-! ## Entry points of `src/lib.rs`

These follow the source's control flow; ABI descriptors, addresses and
state-inits arrive already parsed, since their textual parsers are external
collaborators. -/

/-- Result shape of `decodeInput`. -/
structure DecodedInput where
  method : String
  input : List TokenValue

/-- Result shape of `decodeEvent`. -/
structure DecodedEvent where
  event : String
  data : List TokenValue

/-- Result shape of `decodeOutput`. -/
structure DecodedOutput where
  method : String
  output : List TokenValue

/-- Result shape of `decodeTransaction`. -/
structure DecodedTransaction where
  method : String
  input : List TokenValue
  output : List TokenValue

/-- `decode_input` (`src/lib.rs:166-189`): parse the body, delegate to
`nt_abi::decode_input`, and map "no match" to an absent result. -/
def decodeInput (message_body : String) (contract_abi : ContractAbi)
    (method : MethodName) (internal : Bool) : Except AbiError (Option DecodedInput) :=
  match parseSlice message_body with
  | .error e => .error e
  | .ok body =>
    match ntDecodeInput contract_abi body method internal with
    | .error e => .error e
    | .ok none => .ok none
    | .ok (some (f, data)) => .ok (some { method := f.name, input := data })

/-- `decode_event` (`src/lib.rs:191-212`). -/
def decodeEvent (message_body : String) (contract_abi : ContractAbi)
    (event : MethodName) : Except AbiError (Option DecodedEvent) :=
  match parseSlice message_body with
  | .error e => .error e
  | .ok body =>
    match ntDecodeEvent contract_abi body event with
    | .error e => .error e
    | .ok none => .ok none
    | .ok (some (ev, data)) => .ok (some { event := ev.name, data := data })

/-- `decode_output` (`src/lib.rs:214-236`). -/
def decodeOutput (message_body : String) (contract_abi : ContractAbi)
    (method : MethodName) : Except AbiError (Option DecodedOutput) :=
  match parseSlice message_body with
  | .error e => .error e
  | .ok body =>
    match ntDecodeOutput contract_abi body method with
    | .error e => .error e
    | .ok none => .ok none
    | .ok (some (f, data)) => .ok (some { method := f.name, output := data })

/-- The out-message filter of `decode_transaction` (`src/lib.rs:279-297`):
keep messages whose `dst` is not a string, fail `MessageBodyExpected` when
such a message has no body string, and parse each kept body. -/
def extTxOutBodies : List JVal → Except AbiError (List Bits)
  | [] => .ok []
  | m :: ms =>
    match jsGet m "dst" with
    | .error e => .error e
    | .ok dst =>
      if dst.isString then extTxOutBodies ms
      else
        match jsGet m "body" with
        | .error e => .error e
        | .ok bodyV =>
          match bodyV.asString with
          | none => .error .messageBodyExpected
          | some s =>
            match parseSlice s with
            | .error e => .error e
            | .ok bits =>
              match extTxOutBodies ms with
              | .error e => .error e
              | .ok rest => .ok (bits :: rest)

/-- `decode_transaction` (`src/lib.rs:238-309`). -/
def decodeTransaction (transaction : JVal) (contract_abi : ContractAbi)
    (method : MethodName) : Except AbiError (Option DecodedTransaction) :=
  if !transaction.isObject then .error .objectExpected
  else
    match jsGet transaction "inMessage" with
    | .error e => .error e
    | .ok in_msg =>
      if !in_msg.isObject then .error .messageExpected
      else
        match jsGet in_msg "src" with
        | .error e => .error e
        | .ok src =>
          let internal := src.isString
          match jsGet in_msg "body" with
          | .error e => .error e
          | .ok bodyV =>
            match bodyV.asString with
            | none => .ok none
            | some bstr =>
              match parseSlice bstr with
              | .error e => .error e
              | .ok in_msg_body =>
                match guessMethodByInput contract_abi in_msg_body method internal with
                | .error e => .error e
                | .ok none => .ok none
                | .ok (some f) =>
                  match functionDecodeInput f in_msg_body internal with
                  | none => .error .invalidInput
                  | some input =>
                    match jsGet transaction "outMessages" with
                    | .error e => .error e
                    | .ok (.arr ms) =>
                      match extTxOutBodies ms with
                      | .error e => .error e
                      | .ok ext_out_msgs =>
                        match processRawOutputs ext_out_msgs f with
                        | .error e => .error e
                        | .ok output =>
                          .ok (some { method := f.name, input := input, output := output })
                    | .ok _ => .error .arrayExpected

/-- The out-message filter of `decode_transaction_events`
(`src/lib.rs:330-348`): keep messages whose `dst` is not a string, skip
those without a body string, and parse each kept body. -/
def extEventOutBodies : List JVal → Except AbiError (List Bits)
  | [] => .ok []
  | m :: ms =>
    match jsGet m "dst" with
    | .error e => .error e
    | .ok dst =>
      if dst.isString then extEventOutBodies ms
      else
        match jsGet m "body" with
        | .error e => .error e
        | .ok bodyV =>
          match bodyV.asString with
          | none => extEventOutBodies ms
          | some s =>
            match parseSlice s with
            | .error e => .error e
            | .ok bits =>
              match extEventOutBodies ms with
              | .error e => .error e
              | .ok rest => .ok (bits :: rest)

/-- The per-body event step of `decode_transaction_events`
(`src/lib.rs:352-366`): selector, event lookup, data decode, any failure
skipping the body. -/
def decodeEventFromBody (abi : ContractAbi) (body : Bits) : Option DecodedEvent :=
  match readFunctionId body with
  | none => none
  | some id =>
    match abi.eventById id with
    | none => none
    | some event =>
      match eventDecodeInput event body with
      | none => none
      | some data => some { event := event.name, data := data }

/-- `decode_transaction_events` (`src/lib.rs:311-370`). -/
def decodeTransactionEvents (transaction : JVal) (contract_abi : ContractAbi) :
    Except AbiError (List DecodedEvent) :=
  if !transaction.isObject then .error .objectExpected
  else
    match jsGet transaction "outMessages" with
    | .error e => .error e
    | .ok (.arr ms) =>
      match extEventOutBodies ms with
      | .error e => .error e
      | .ok ext_out_msgs =>
        .ok (ext_out_msgs.filterMap (decodeEventFromBody contract_abi))
    | .ok _ => .error .arrayExpected

/-! ## `verify_signature` (`src/lib.rs:372-404`)

The ed25519 primitive is an external collaborator, "treated as a
`verify(pubkey, hash, signature) -> bool` capability" by the spec, so it is
a function parameter here; everything else follows the source. -/

/-- A parsed ed25519 public key (`parse_public_key` lives in the crate's
absent `utils` module; modelled from the spec: hex encoding is used for raw
key material, a key is 32 bytes). -/
def parsePublicKey (s : String) : Except AbiError (List Nat) :=
  match hexDecode s with
  | .error _ => .error .invalidPublicKey
  | .ok bytes => if bytes.length == 32 then .ok bytes else .error .invalidPublicKey

/-- The data-hash decoding of `verify_signature` (`src/lib.rs:380-386`):
hex first, base64 as the fallback; when both fail, the hex error is the one
surfaced. -/
def decodeDataHash (data_hash : String) : Except AbiError (List Nat) :=
  match hexDecode data_hash with
  | .ok bytes => .ok bytes
  | .error e =>
    match base64Decode data_hash with
    | .ok bytes => .ok bytes
    | .error _ => .error (.invalidHex e)

/-- The signature decoding of `verify_signature` (`src/lib.rs:391-397`):
base64 first, hex as the fallback; when both fail, the base64 error is the
one surfaced. -/
def decodeSignature (signature : String) : Except AbiError (List Nat) :=
  match base64Decode signature with
  | .ok bytes => .ok bytes
  | .error e =>
    match hexDecode signature with
    | .ok bytes => .ok bytes
    | .error _ => .error (.invalidBase64 e)

/-- `verify_signature`: hex-then-base64 for the data hash, base64-then-hex
for the signature, 32- and 64-byte length checks, then the verification
capability's boolean answer. -/
def verifySignature (verify : List Nat → List Nat → List Nat → Bool)
    (public_key data_hash signature : String) : Except AbiError Bool :=
  match parsePublicKey public_key with
  | .error e => .error e
  | .ok pk =>
    match decodeDataHash data_hash with
    | .error e => .error e
    | .ok dh =>
      if dh.length ≠ 32 then .error .invalidDataHashLength
      else
        match decodeSignature signature with
        | .error e => .error e
        | .ok sg =>
          if sg.length ≠ 64 then .error .invalidSignatureLength
          else .ok (verify pk dh sg)

/-! ## `create_unsigned_message_without_signature` (`src/lib.rs:406-461`) -/

/-- Modelled from the spec: `ExpireAt::new_from_millis` with
`Expiration::Timeout(timeout)` — `expire = now_millis + timeout_ms`
truncated to protocol time granularity (32-bit unix seconds). -/
def expireTimestamp (timeout time : Nat) : Nat :=
  ((time + timeout) / 1000) % 2 ^ 32

/-- A destination address (`MsgAddressInt`), opaque here. -/
structure Address where
  workchain : Int
  addr : Nat

/-- An initial contract state (`ton_block::StateInit`); the cell payloads
are opaque. -/
structure StateInit where
  split_depth : Option Nat
  special : Option (Bool × Bool)
  code : Option Bits
  data : Option Bits
  library : Option Bits

/-- The built message envelope: external inbound header (destination),
optional initial state, encoded body. -/
structure MessageModel where
  dst : Address
  state_init : Option StateInit
  body : Bits

/-- Result shape of `create_unsigned_message_without_signature`
(`nt::crypto::SignedMessage`). -/
structure SignedMessageModel where
  message : MessageModel
  expire_at : Nat

/-- `create_unsigned_message_without_signature`: look the method up,
validate the arguments, build the header map
{`time`: now, `expire`: computed, `pubkey`: none}, encode the external
body without a signature, and assemble the envelope.  The wall clock
reading (`chrono::Utc::now().timestamp_millis()`) is the `time`
parameter. -/
def createUnsignedMessageWithoutSignature (dst : Address)
    (contract_abi : ContractAbi) (method : String) (state_init : Option StateInit)
    (input : List TokenValue) (timeout : Nat) (time : Nat) :
    Except AbiError SignedMessageModel :=
  match contract_abi.functionByName method with
  | none => .error .functionNotFound
  | some f =>
    if !(validTokens input f.inputTypes) then .error .typeMismatch
    else
      let expire_at := expireTimestamp timeout time
      let header : HeaderMap :=
        [("time", .timeV time), ("expire", .expireV expire_at), ("pubkey", .pubkeyV none)]
      match encodeInputBody f header input false none with
      | none => .error .encodeFailed
      | some body =>
        .ok { message := { dst := dst, state_init := state_init, body := body },
              expire_at := expire_at }

/-! ## `get_expected_address` (`src/lib.rs:50-76`)

`insert_init_data` (in the crate's absent `tokens_object`/`utils` layer)
and the representation hash of a state-init are external collaborators,
passed as function parameters. -/

/-- The data-replacement step of `get_expected_address`
(`src/lib.rs:62-66`): when the parsed state-init carries a data cell it is
replaced by the init data with public key and init values inserted;
otherwise the data stays absent and no insertion is attempted. -/
def applyInitData (insert : Bits → Except AbiError Bits) (s : StateInit) :
    Except AbiError StateInit :=
  match s.data with
  | some d =>
    match insert d with
    | .error e => .error e
    | .ok d' => .ok { s with data := some d' }
  | none => .ok { s with data := none }

/-- `get_expected_address`: parse the tvc state-init (already parsed here),
rewrite its data, hash it, and form a standard address from the workchain
and the hash. -/
def getExpectedAddress (hash : StateInit → Nat)
    (insert : Bits → Except AbiError Bits) (state_init : StateInit)
    (workchain_id : Int) : Except AbiError Address :=
  match applyInitData insert state_init with
  | .error e => .error e
  | .ok s => .ok { workchain := workchain_id, addr := hash s }


/-! ## Concrete fixtures

A small sample contract and sample bodies used by the concrete witnesses
and counterexamples below. -/

/-- A sample event with no data parameters and selector 1. -/
def evA : EventAbi := { name := "TestEvent", inputs := [], id := 1 }

/-- A sample event with one `uint8` data parameter and selector 2. -/
def evB : EventAbi := { name := "ValueEvent", inputs := [{ name := "x", ty := .uint 8 }], id := 2 }

/-- A sample function `transfer(amount: uint8) -> (res: uint8)` with input
selector 7 and output selector 8. -/
def fnA : FunctionAbi :=
  { name := "transfer", inputs := [{ name := "amount", ty := .uint 8 }],
    outputs := [{ name := "res", ty := .uint 8 }], input_id := 7, output_id := 8 }

/-- A sample parsed contract ABI. -/
def sampleAbi : ContractAbi := { functions := [fnA], events := [evA, evB] }

/-! ## Supporting lemmas -/

theorem natToBits_length (w n : Nat) : (natToBits w n).length = w := by
  induction w generalizing n with
  | zero => rfl
  | succ k ih => simp [natToBits, ih]

theorem bitsToNat_append_singleton (bs : Bits) (b : Bool) :
    bitsToNat (bs ++ [b]) = 2 * bitsToNat bs + (if b then 1 else 0) := by
  simp [bitsToNat, List.foldl_append]

theorem mod_two_mul_split (n m : Nat) (hm : 0 < m) :
    n % (2 * m) = 2 * (n / 2 % m) + n % 2 := by
  have hq := Nat.div_add_mod n 2
  have hqm := Nat.div_add_mod (n / 2) m
  have hrm : n / 2 % m < m := Nat.mod_lt _ hm
  have hr2 : n % 2 < 2 := Nat.mod_lt _ (by omega)
  have hmul : n / 2 / m * (2 * m) = 2 * (m * (n / 2 / m)) := by ring
  have hrepr : n = (2 * (n / 2 % m) + n % 2) + n / 2 / m * (2 * m) := by omega
  conv_lhs => rw [hrepr]
  rw [Nat.add_mul_mod_self_right, Nat.mod_eq_of_lt (by omega)]

theorem bitsToNat_natToBits (w n : Nat) : bitsToNat (natToBits w n) = n % 2 ^ w := by
  induction w generalizing n with
  | zero => simp [natToBits, bitsToNat, Nat.mod_one]
  | succ k ih =>
    rw [natToBits, bitsToNat_append_singleton, ih]
    have h2 : (2 : Nat) ^ (k + 1) = 2 * 2 ^ k := by ring
    rw [h2, mod_two_mul_split n (2 ^ k) (Nat.pos_pow_of_pos k (by omega))]
    have hr2 : n % 2 < 2 := Nat.mod_lt _ (by omega)
    cases hb : (n % 2 == 1) <;> simp_all

theorem bitsToNat_natToBits_of_lt {w n : Nat} (h : n < 2 ^ w) :
    bitsToNat (natToBits w n) = n := by
  rw [bitsToNat_natToBits, Nat.mod_eq_of_lt h]

theorem readBits_append {xs : Bits} (n : Nat) (ys : Bits) (h : xs.length = n) :
    readBits n (xs ++ ys) = some (xs, ys) := by
  subst h
  simp [readBits, List.take_append, List.drop_append]

theorem decodeIntField_encode {w : Nat} {v : Int} (hw : 0 < w)
    (hlo : -(2 ^ (w - 1) : Int) ≤ v) (hhi : v < (2 ^ (w - 1) : Int)) :
    (v % ((2 ^ w : Nat) : Int)).toNat < 2 ^ w ∧
      decodeIntField w (v % ((2 ^ w : Nat) : Int)).toNat = v := by
  have hM : ((2 ^ w : Nat) : Int) = 2 * (2 ^ (w - 1) : Int) := by
    have hw' : w = (w - 1) + 1 := by omega
    rw [hw']
    push_cast
    ring
  have hMpos : (0 : Int) < ((2 ^ w : Nat) : Int) := by positivity
  have hnn : 0 ≤ v % ((2 ^ w : Nat) : Int) := Int.emod_nonneg v (by omega)
  have hub : v % ((2 ^ w : Nat) : Int) < ((2 ^ w : Nat) : Int) :=
    Int.emod_lt_of_pos v hMpos
  have hKnat : ((2 ^ (w - 1) : Nat) : Int) = (2 ^ (w - 1) : Int) := by push_cast; rfl
  have hval : v % ((2 ^ w : Nat) : Int) = if 0 ≤ v then v else v + ((2 ^ w : Nat) : Int) := by
    by_cases h0 : 0 ≤ v
    · simp only [h0, if_true]
      exact Int.emod_eq_of_lt h0 (by omega)
    · simp only [h0, if_false]
      have heq : (v + ((2 ^ w : Nat) : Int)) % ((2 ^ w : Nat) : Int) =
          v % ((2 ^ w : Nat) : Int) := by
        rw [show v + ((2 ^ w : Nat) : Int) = v + ((2 ^ w : Nat) : Int) * 1 by ring,
          Int.add_mul_emod_self_left]
      rw [← heq, Int.emod_eq_of_lt (by omega) (by omega)]
  constructor
  · omega
  · unfold decodeIntField
    by_cases h0 : 0 ≤ v
    · rw [if_pos]
      · omega
      · omega
    · rw [if_neg]
      · omega
      · omega

theorem token_roundtrip_aux (N : Nat) :
    (∀ v ty rest, sizeOf v < N → validToken v ty = true →
        decodeToken ty (encodeToken v ++ rest) = some (v, rest)) ∧
      (∀ vs tys rest, sizeOf vs < N → validTokens vs tys = true →
        decodeTokens tys (encodeTokens vs ++ rest) = some (vs, rest)) := by
  induction N with
  | zero =>
    constructor
    · intro v ty rest hsz
      omega
    · intro vs tys rest hsz
      omega
  | succ n ih =>
    constructor
    · intro v ty rest hsz hv
      cases v with
      | uintV w val =>
        cases ty <;> try (exfalso; simpa [validToken] using hv)
        case uint w' =>
          simp only [validToken, Bool.and_eq_true, beq_iff_eq, decide_eq_true_eq] at hv
          obtain ⟨rfl, hlt⟩ := hv
          simp only [encodeToken, decodeToken,
            readBits_append w rest (natToBits_length w val)]
          simp [bitsToNat_natToBits_of_lt hlt]
      | intV w val =>
        cases ty <;> try (exfalso; simpa [validToken] using hv)
        case int w' =>
          simp only [validToken, Bool.and_eq_true, beq_iff_eq, decide_eq_true_eq] at hv
          obtain ⟨⟨⟨rfl, hw⟩, hlo⟩, hhi⟩ := hv
          obtain ⟨hlt, hdec⟩ := decodeIntField_encode hw hlo hhi
          have hcast : ((2 ^ w : Nat) : Int) = (2 : Int) ^ w := by push_cast; ring
          rw [hcast] at hlt hdec
          simp only [encodeToken, decodeToken,
            readBits_append w rest (natToBits_length w _)]
          simp [bitsToNat_natToBits_of_lt hlt, hdec]
      | boolV b =>
        cases ty <;> try (exfalso; simpa [validToken] using hv)
        case bool => simp [encodeToken, decodeToken]
      | tupleV vs =>
        cases ty <;> try (exfalso; simpa [validToken] using hv)
        case tuple ts =>
          simp only [validToken] at hv
          have hsz' : sizeOf vs < n := by
            simp only [TokenValue.tupleV.sizeOf_spec] at hsz
            omega
          simp [encodeToken, decodeToken, ih.2 vs ts rest hsz' hv]
      | timeV v => cases ty <;> (exfalso; simpa [validToken] using hv)
      | expireV v => cases ty <;> (exfalso; simpa [validToken] using hv)
      | pubkeyV k => cases ty <;> (exfalso; simpa [validToken] using hv)
    · intro vs tys rest hsz hv
      cases vs with
      | nil =>
        cases tys <;> try (exfalso; simpa [validTokens] using hv)
        case nil => simp [encodeTokens, decodeTokens]
      | cons v vs' =>
        cases tys with
        | nil => simp [validTokens] at hv
        | cons t ts =>
          simp only [validTokens, Bool.and_eq_true] at hv
          obtain ⟨hv1, hv2⟩ := hv
          have hs1 : sizeOf v < n := by
            simp only [List.cons.sizeOf_spec] at hsz
            have : 1 ≤ sizeOf vs' := by cases vs' <;> simp_arith
            omega
          have hs2 : sizeOf vs' < n := by
            simp only [List.cons.sizeOf_spec] at hsz
            have : 1 ≤ sizeOf v := by cases v <;> simp_arith
            omega
          simp only [encodeTokens, List.append_assoc, decodeTokens,
            ih.1 v t _ hs1 hv1, ih.2 vs' ts rest hs2 hv2]

/-- The token codec round-trips: a list of values valid against a list of
declared parameter types decodes back from its own encoding, leaving the
remaining bits untouched. -/
theorem decodeTokens_encodeTokens (vs : List TokenValue) (tys : List ParamType)
    (rest : Bits) (hv : validTokens vs tys = true) :
    decodeTokens tys (encodeTokens vs ++ rest) = some (vs, rest) :=
  (token_roundtrip_aux (sizeOf vs + 1)).2 vs tys rest (by omega) hv

theorem headerBits_shape {h : HeaderMap} {hb : Bits} (hh : headerBits h = some hb) :
    ∃ t e p, hb = natToBits 64 t ++ natToBits 32 e ++ p ∧
      (p = [false] ∨ ∃ k, p = true :: natToBits 256 k) := by
  unfold headerBits at hh
  split at hh
  · exact ⟨_, _, _, (Option.some.inj hh).symm, Or.inl rfl⟩
  · exact ⟨_, _, _, (Option.some.inj hh).symm, Or.inr ⟨_, rfl⟩⟩
  · exact absurd hh (by simp)

theorem skipExternalPrefix_parts (t e : Nat) (p tail : Bits)
    (hp : p = [false] ∨ ∃ k, p = true :: natToBits 256 k) :
    skipExternalPrefix (false :: ((natToBits 64 t ++ natToBits 32 e ++ p) ++ tail)) =
      some tail := by
  rcases hp with rfl | ⟨k, rfl⟩
  · simp [skipExternalPrefix, skipMaybeBits, List.append_assoc,
      readBits_append 64 _ (natToBits_length 64 t),
      readBits_append 32 _ (natToBits_length 32 e)]
  · simp [skipExternalPrefix, skipMaybeBits, List.append_assoc,
      readBits_append 64 _ (natToBits_length 64 t),
      readBits_append 32 _ (natToBits_length 32 e),
      readBits_append 256 _ (natToBits_length 256 k)]

theorem skipExternalPrefix_encoded {h : HeaderMap} {hb : Bits} (tail : Bits)
    (hh : headerBits h = some hb) :
    skipExternalPrefix (false :: (hb ++ tail)) = some tail := by
  obtain ⟨t, e, p, hbe, hp⟩ := headerBits_shape hh
  rw [hbe]
  exact skipExternalPrefix_parts t e p tail hp

theorem functionDecodeInput_encodeInputBody (f : FunctionAbi) (h : HeaderMap)
    (args : List TokenValue) (internal : Bool) {body : Bits}
    (hargs : validTokens args f.inputTypes = true) (hid : f.input_id < 2 ^ 32)
    (henc : encodeInputBody f h args internal none = some body) :
    functionDecodeInput f body internal = some args := by
  have hdt : decodeTokens f.inputTypes (encodeTokens args) = some (args, []) := by
    have := decodeTokens_encodeTokens args f.inputTypes [] hargs
    simpa using this
  cases internal with
  | true =>
    simp only [encodeInputBody, if_true, Option.some.injEq] at henc
    subst henc
    simp [functionDecodeInput, decodeBodyTokens,
      readBits_append 32 _ (natToBits_length 32 f.input_id),
      bitsToNat_natToBits_of_lt hid, hdt]
  | false =>
    cases hhb : headerBits h with
    | none => simp [encodeInputBody, hhb] at henc
    | some hb =>
      have he : encodeInputBody f h args false none =
          some (false :: (hb ++ (natToBits 32 f.input_id ++ encodeTokens args))) := by
        simp [encodeInputBody, hhb]
      rw [he] at henc
      rw [← Option.some.inj henc]
      simp only [functionDecodeInput]
      rw [if_neg (by simp), skipExternalPrefix_encoded _ hhb]
      simp [decodeBodyTokens,
        readBits_append 32 _ (natToBits_length 32 f.input_id),
        bitsToNat_natToBits_of_lt hid, hdt]

/-- C1 -- Round-trip: for every function of a parsed contract ABI, every
well-formed header map and every argument list valid against the declared
inputs, the body produced by `encode_input` (with no signature) decodes via
`decode_input` back to exactly the same arguments, in both the internal and
the external mode; in particular the body built by `encode_internal_input`
(internal mode) decodes via `nt_abi::decode_input` with `internal = true`
to the same input tokens and the same method. -/
theorem c1_encode_decode_roundtrip (abi : ContractAbi) (f : FunctionAbi)
    (h : HeaderMap) (args : List TokenValue) (internal : Bool)
    (hargs : validTokens args f.inputTypes = true) (hid : f.input_id < 2 ^ 32)
    (hh : (headerBits h).isSome = true)
    (hname : hintFilter (.known f.name) abi.functions = [f]) :
    (∃ body, encodeInputBody f h args internal none = some body ∧
        functionDecodeInput f body internal = some args) ∧
      (∀ body, encodeInputBody f [] args true none = some body →
        ntDecodeInput abi body (.known f.name) true = .ok (some (f, args))) := by
  constructor
  · cases internal with
    | true =>
      refine ⟨_, rfl, ?_⟩
      exact functionDecodeInput_encodeInputBody f h args true hargs hid rfl
    | false =>
      rw [Option.isSome_iff_exists] at hh
      obtain ⟨hb, hhb⟩ := hh
      refine ⟨false :: (hb ++ (natToBits 32 f.input_id ++ encodeTokens args)), ?_, ?_⟩
      · simp [encodeInputBody, hhb]
      · exact functionDecodeInput_encodeInputBody f h args false hargs hid
          (by simp [encodeInputBody, hhb])
  · intro body henc
    simp only [encodeInputBody, if_true, Option.some.injEq] at henc
    subst henc
    have hdec : functionDecodeInput f
        (natToBits 32 f.input_id ++ encodeTokens args) true = some args :=
      functionDecodeInput_encodeInputBody f [] args true hargs hid rfl
    unfold ntDecodeInput guessMethodByInput
    simp only [readInputFunctionId, if_true, readFunctionId,
      readBits_append 32 _ (natToBits_length 32 f.input_id), Option.map_some',
      bitsToNat_natToBits_of_lt hid]
    rw [hname]
    simp [List.find?, hdec]

theorem decodeTransactionEvents_run (abi : ContractAbi) (tx : JVal) (ms : List JVal)
    (hobj : tx.isObject = true) (hout : jsGet tx "outMessages" = .ok (.arr ms)) :
    decodeTransactionEvents tx abi =
      match extEventOutBodies ms with
      | .error e => .error e
      | .ok bs => .ok (bs.filterMap (decodeEventFromBody abi)) := by
  simp [decodeTransactionEvents, hobj, hout]

/-- C2 (amended) -- Event extraction reads the leading selector only of the
outbound bodies whose message does not carry a destination-address string:
a message with a string `dst` is skipped entirely, and a kept message's
parsed body (whatever its other markers) has its selector read, an event
looked up by it and, on match, its data decoded and prepended in order. -/
theorem c2_event_scan_dst_filtered (abi : ContractAbi) (m : JVal) (ms : List JVal) :
    (∀ s, jsGet m "dst" = .ok (.str s) →
      decodeTransactionEvents (.obj [("outMessages", .arr (m :: ms))]) abi =
        decodeTransactionEvents (.obj [("outMessages", .arr ms)]) abi) ∧
      (∀ v b bits, jsGet m "dst" = .ok v → v.isString = false →
        jsGet m "body" = .ok (.str b) → parseSlice b = .ok bits →
        decodeTransactionEvents (.obj [("outMessages", .arr (m :: ms))]) abi =
          (decodeTransactionEvents (.obj [("outMessages", .arr ms)]) abi).map
            (fun evs => (decodeEventFromBody abi bits).toList ++ evs)) := by
  constructor
  · intro s hdst
    rw [decodeTransactionEvents_run abi (.obj [("outMessages", .arr (m :: ms))]) (m :: ms) rfl rfl,
      decodeTransactionEvents_run abi (.obj [("outMessages", .arr ms)]) ms rfl rfl]
    have hskip : extEventOutBodies (m :: ms) = extEventOutBodies ms := by
      simp [extEventOutBodies, hdst, JVal.isString]
    rw [hskip]
  · intro v b bits hdst hnstr hbody hparse
    rw [decodeTransactionEvents_run abi (.obj [("outMessages", .arr (m :: ms))]) (m :: ms) rfl rfl,
      decodeTransactionEvents_run abi (.obj [("outMessages", .arr ms)]) ms rfl rfl]
    have hcons : extEventOutBodies (m :: ms) =
        match extEventOutBodies ms with
        | .error e => .error e
        | .ok rest => .ok (bits :: rest) := by
      simp [extEventOutBodies, hdst, hnstr, hbody, hparse, JVal.asString]
    rw [hcons]
    cases hrest : extEventOutBodies ms with
    | error e => simp [Except.map]
    | ok rest =>
      cases hdec : decodeEventFromBody abi bits <;>
        simp [List.filterMap_cons, hdec, Except.map]

/-- Witness for C2 (amended): a `dst`-marked message is skipped and an
unmarked message with a decodable event body contributes its event. -/
theorem c2_event_scan_dst_filtered_witness :
    (decodeTransactionEvents
        (.obj [("outMessages", .arr
          [.obj [("dst", .str "0:0011"), ("body", .str "AAAAAQ==")]])]) sampleAbi =
      decodeTransactionEvents (.obj [("outMessages", .arr [])]) sampleAbi) ∧
      (decodeTransactionEvents
          (.obj [("outMessages", .arr [.obj [("body", .str "AAAAAQ==")]])]) sampleAbi =
        (decodeTransactionEvents (.obj [("outMessages", .arr [])]) sampleAbi).map
          (fun evs =>
            (decodeEventFromBody sampleAbi (bytesToBits [0, 0, 0, 1])).toList ++ evs)) := by
  constructor
  · exact (c2_event_scan_dst_filtered sampleAbi
      (.obj [("dst", .str "0:0011"), ("body", .str "AAAAAQ==")]) []).1 "0:0011" rfl
  · exact (c2_event_scan_dst_filtered sampleAbi
      (.obj [("body", .str "AAAAAQ==")]) []).2 .null "AAAAAQ=="
      (bytesToBits [0, 0, 0, 1]) rfl rfl rfl rfl

/-- Counterexample to C2 as stated: a transaction whose only outbound
message carries a destination-address string and a body that decodes to a
declared event yields no events at all — the selector of a
destination-marked outbound body is never read, contradicting "regardless
of whether the message carries a destination-address marker". -/
theorem c2_counterexample :
    decodeTransactionEvents
        (.obj [("outMessages", .arr
          [.obj [("dst", .str "0:0011"), ("body", .str "AAAAAQ==")]])]) sampleAbi =
      .ok [] ∧
      parseSlice "AAAAAQ==" = .ok (bytesToBits [0, 0, 0, 1]) ∧
      decodeEventFromBody sampleAbi (bytesToBits [0, 0, 0, 1]) =
        some { event := "TestEvent", data := [] } := by
  exact ⟨rfl, rfl, rfl⟩

/-- C3 (amended) -- after the bodies have been extracted and parsed, event
extraction is fault-isolating: a parsed body that is non-matching or
malformed (selector unreadable from the slice, no declared event with its
selector, or data failing to decode) is silently skipped and the events of
the remaining bodies are still returned; a body string that fails to parse
as a slice, however, aborts the extraction with an error. -/
theorem c3_event_scan_fault_isolation (abi : ContractAbi) (ms : List JVal)
    (bs1 bs2 : List Bits) (bad : Bits)
    (hext : extEventOutBodies ms = .ok (bs1 ++ bad :: bs2))
    (hbad : decodeEventFromBody abi bad = none) :
    decodeTransactionEvents (.obj [("outMessages", .arr ms)]) abi =
      .ok ((bs1 ++ bs2).filterMap (decodeEventFromBody abi)) := by
  rw [decodeTransactionEvents_run abi (.obj [("outMessages", .arr ms)]) ms rfl rfl, hext]
  simp [List.filterMap_append, List.filterMap_cons, hbad]

/-- Witness for C3 (amended): three parsed bodies where the middle one has
an undeclared selector still yield the events of the other two. -/
theorem c3_event_scan_fault_isolation_witness :
    decodeTransactionEvents
        (.obj [("outMessages", .arr
          [.obj [("body", .str "AAAAAQ==")],
           .obj [("body", .str "AAAA/w==")],
           .obj [("body", .str "AAAAAgU=")]])]) sampleAbi =
      .ok ([bytesToBits [0, 0, 0, 1], bytesToBits [0, 0, 0, 2, 5]].filterMap
        (decodeEventFromBody sampleAbi)) := by
  exact c3_event_scan_fault_isolation sampleAbi
    [.obj [("body", .str "AAAAAQ==")],
     .obj [("body", .str "AAAA/w==")],
     .obj [("body", .str "AAAAAgU=")]]
    [bytesToBits [0, 0, 0, 1]] [bytesToBits [0, 0, 0, 2, 5]]
    (bytesToBits [0, 0, 0, 255]) rfl rfl

/-- Counterexample to C3 as stated: a transaction with three outbound
bodies whose second body string is corrupted (not valid base64) aborts the
whole extraction with an error — the events of the first and third,
themselves decodable, are not returned. -/
theorem c3_counterexample :
    decodeTransactionEvents
        (.obj [("outMessages", .arr
          [.obj [("body", .str "AAAAAQ==")],
           .obj [("body", .str "!")],
           .obj [("body", .str "AAAAAgU=")]])]) sampleAbi =
      .error (.invalidBase64 (.invalidByte '!')) ∧
      decodeEventFromBody sampleAbi (bytesToBits [0, 0, 0, 1]) =
        some { event := "TestEvent", data := [] } ∧
      decodeEventFromBody sampleAbi (bytesToBits [0, 0, 0, 2, 5]) =
        some { event := "ValueEvent", data := [.uintV 8 5] } := by
  exact ⟨rfl, rfl, rfl⟩

theorem decodeBodyTokens_ne {rest : Bits} {sel : Nat} (id : Nat) (tys : List ParamType)
    (hsel : readFunctionId rest = some sel) (hne : sel ≠ id) :
    decodeBodyTokens id tys rest = none := by
  unfold readFunctionId at hsel
  unfold decodeBodyTokens
  cases hrb : readBits 32 rest with
  | none => rfl
  | some p =>
    rw [hrb] at hsel
    simp only [Option.map_some', Option.some.injEq] at hsel
    simp [hsel, hne]

theorem hintFilter_subset {hint : MethodName} {fs : List FunctionAbi} {f : FunctionAbi}
    (hm : f ∈ hintFilter hint fs) : f ∈ fs := by
  cases hint <;> simp only [hintFilter] at hm <;> exact (List.mem_filter.mp hm).1

theorem guessMethodByInput_no_candidate {abi : ContractAbi} {body : Bits}
    {internal : Bool} {sel : Nat} (hint : MethodName)
    (hsel : readInputFunctionId body internal = some sel)
    (hno : ∀ f ∈ abi.functions, f.input_id ≠ sel) :
    guessMethodByInput abi body hint internal = .ok none := by
  unfold guessMethodByInput
  rw [hsel]
  have hempty : ((hintFilter hint abi.functions).filter (·.input_id == sel)) = [] := by
    rw [List.filter_eq_nil]
    intro f hm
    simp [hno f (hintFilter_subset hm)]
  simp [hempty]

/-- C5 -- For every message body whose leading selector matches no declared
function (or event) of the contract ABI, the decode operations
(`decode_input`, `decode_event`, `decode_output`, and the method-guessing
step of `decode_transaction`) return an absent result (`Ok(None)`), never
an error. -/
theorem c5_no_match_is_none (abi : ContractAbi) (s : String) (body : Bits)
    (hint : MethodName) (internal : Bool) (sel : Nat)
    (hparse : parseSlice s = .ok body) :
    ((readInputFunctionId body internal = some sel) →
      (∀ f ∈ abi.functions, f.input_id ≠ sel) →
      decodeInput s abi hint internal = .ok none) ∧
      ((readFunctionId body = some sel) → (∀ e ∈ abi.events, e.id ≠ sel) →
        decodeEvent s abi hint = .ok none) ∧
      ((readFunctionId body = some sel) → (∀ f ∈ abi.functions, f.output_id ≠ sel) →
        decodeOutput s abi hint = .ok none) ∧
      (∀ tx in_msg srcv,
        tx.isObject = true → jsGet tx "inMessage" = .ok in_msg →
        in_msg.isObject = true → jsGet in_msg "src" = .ok srcv →
        jsGet in_msg "body" = .ok (.str s) →
        readInputFunctionId body srcv.isString = some sel →
        (∀ f ∈ abi.functions, f.input_id ≠ sel) →
        decodeTransaction tx abi hint = .ok none) := by
  refine ⟨?_, ?_, ?_, ?_⟩
  · intro hsel hno
    simp [decodeInput, hparse, ntDecodeInput,
      guessMethodByInput_no_candidate hint hsel hno]
  · intro hsel hno
    have hall : ∀ ev ∈ eventHintFilter hint abi.events,
        (eventDecodeInput ev body).map (fun d => (ev, d)) = none := by
      intro ev hm
      have hmem : ev ∈ abi.events := by
        cases hint <;> exact (List.mem_filter.mp hm).1
      simp [eventDecodeInput, decodeBodyTokens_ne ev.id ev.inputTypes hsel
        (Ne.symm (hno ev hmem))]
    simp only [decodeEvent, hparse, ntDecodeEvent]
    rw [List.findSome?_eq_none.mpr hall]
  · intro hsel hno
    have hall : ∀ f ∈ hintFilter hint abi.functions,
        (functionDecodeOutput f body).map (fun d => (f, d)) = none := by
      intro f hm
      simp [functionDecodeOutput, decodeBodyTokens_ne f.output_id f.outputTypes hsel
        (Ne.symm (hno f (hintFilter_subset hm)))]
    simp only [decodeOutput, hparse, ntDecodeOutput]
    rw [List.findSome?_eq_none.mpr hall]
  · intro tx in_msg srcv hobj hin hinobj hsrc hbody hsel hno
    simp [decodeTransaction, hobj, hin, hinobj, hsrc, hbody, hparse, JVal.asString,
      guessMethodByInput_no_candidate hint hsel hno]

/-- Witness for C5: the selector 255 is declared by no function or event of
the sample contract; all four operations return an absent result. -/
theorem c5_no_match_is_none_witness :
    decodeInput "AAAA/w==" sampleAbi (.guessInRange ["transfer"]) true = .ok none ∧
      decodeEvent "AAAA/w==" sampleAbi (.guessInRange ["TestEvent", "ValueEvent"]) =
        .ok none ∧
      decodeOutput "AAAA/w==" sampleAbi (.guessInRange ["transfer"]) = .ok none ∧
      decodeTransaction
          (.obj [("inMessage", .obj [("src", .str "0:0011"), ("body", .str "AAAA/w==")]),
                 ("outMessages", .arr [])])
          sampleAbi (.guessInRange ["transfer"]) = .ok none := by
  have h := c5_no_match_is_none sampleAbi "AAAA/w==" (bytesToBits [0, 0, 0, 255])
    (.guessInRange ["transfer"]) true 255 rfl
  refine ⟨h.1 rfl ?_, ?_, ?_, ?_⟩
  · intro f hf
    simp only [sampleAbi, fnA] at hf
    simp at hf
    simp [hf]
  · refine (c5_no_match_is_none sampleAbi "AAAA/w==" (bytesToBits [0, 0, 0, 255])
      (.guessInRange ["TestEvent", "ValueEvent"]) true 255 rfl).2.1 rfl ?_
    intro e he
    simp only [sampleAbi, evA, evB] at he
    simp at he
    rcases he with rfl | rfl <;> simp
  · refine h.2.2.1 rfl ?_
    intro f hf
    simp only [sampleAbi, fnA] at hf
    simp at hf
    simp [hf]
  · refine h.2.2.2
      (.obj [("inMessage", .obj [("src", .str "0:0011"), ("body", .str "AAAA/w==")]),
             ("outMessages", .arr [])])
      (.obj [("src", .str "0:0011"), ("body", .str "AAAA/w==")])
      (.str "0:0011") rfl rfl rfl rfl rfl rfl ?_
    intro f hf
    simp only [sampleAbi, fnA] at hf
    simp at hf
    simp [hf]

theorem processRawOutputs_first (f : FunctionAbi) (pre post : List Bits) (good : Bits)
    (out : List TokenValue) (hpre : ∀ b ∈ pre, functionDecodeOutput f b = none)
    (hgood : functionDecodeOutput f good = some out) :
    processRawOutputs (pre ++ good :: post) f = .ok out := by
  unfold processRawOutputs
  have hfind : (pre ++ good :: post).findSome? (functionDecodeOutput f) = some out := by
    induction pre with
    | nil => simp [List.findSome?_cons, hgood]
    | cons b bs ih =>
      rw [List.cons_append]
      simp only [List.findSome?_cons, hpre b (by simp)]
      exact ih (fun x hx => hpre x (by simp [hx]))
  rw [hfind]

theorem decodeTransaction_run (abi : ContractAbi) (hint : MethodName)
    (tx in_msg srcv : JVal) (bstr : String) (body : Bits) (f : FunctionAbi)
    (input : List TokenValue) (ms : List JVal)
    (hobj : tx.isObject = true) (hin : jsGet tx "inMessage" = .ok in_msg)
    (hinobj : in_msg.isObject = true) (hsrc : jsGet in_msg "src" = .ok srcv)
    (hbody : jsGet in_msg "body" = .ok (.str bstr))
    (hparse : parseSlice bstr = .ok body)
    (hguess : guessMethodByInput abi body hint srcv.isString = .ok (some f))
    (hdec : functionDecodeInput f body srcv.isString = some input)
    (hout : jsGet tx "outMessages" = .ok (.arr ms)) :
    decodeTransaction tx abi hint =
      match extTxOutBodies ms with
      | .error e => .error e
      | .ok ext =>
        match processRawOutputs ext f with
        | .error e => .error e
        | .ok output => .ok (some { method := f.name, input := input, output := output }) := by
  simp [decodeTransaction, hobj, hin, hinobj, hsrc, hbody, hparse, JVal.asString,
    hguess, hdec, hout]

/-- C4 (amended) -- Output correlation in `decode_transaction` uses only
the outbound bodies whose message does not carry a destination-address
string: a `dst`-marked message is excluded from the correlation; each kept
body is decoded against the chosen function's output selector, the first
kept body that decodes successfully supplies the output arguments, and
other kept bodies that fail to decode (inserted before or after the
correct one) do not change the correlated output. -/
theorem c4_output_correlation (abi : ContractAbi) (hint : MethodName) :
    (∀ m ms s, jsGet m "dst" = .ok (.str s) →
      extTxOutBodies (m :: ms) = extTxOutBodies ms) ∧
      (∀ f pre post good out, (∀ b ∈ pre, functionDecodeOutput f b = none) →
        functionDecodeOutput f good = some out →
        processRawOutputs (pre ++ good :: post) f = .ok out) ∧
      (∀ tx in_msg srcv bstr body f input ms,
        tx.isObject = true → jsGet tx "inMessage" = .ok in_msg →
        in_msg.isObject = true → jsGet in_msg "src" = .ok srcv →
        jsGet in_msg "body" = .ok (.str bstr) → parseSlice bstr = .ok body →
        guessMethodByInput abi body hint srcv.isString = .ok (some f) →
        functionDecodeInput f body srcv.isString = some input →
        jsGet tx "outMessages" = .ok (.arr ms) →
        decodeTransaction tx abi hint =
          match extTxOutBodies ms with
          | .error e => .error e
          | .ok ext =>
            match processRawOutputs ext f with
            | .error e => .error e
            | .ok output =>
              .ok (some { method := f.name, input := input, output := output })) := by
  refine ⟨?_, ?_, ?_⟩
  · intro m ms s hdst
    simp [extTxOutBodies, hdst, JVal.isString]
  · exact fun f pre post good out hpre hgood =>
      processRawOutputs_first f pre post good out hpre hgood
  · exact fun tx in_msg srcv bstr body f input ms hobj hin hinobj hsrc hbody hparse
      hguess hdec hout =>
      decodeTransaction_run abi hint tx in_msg srcv bstr body f input ms hobj hin
        hinobj hsrc hbody hparse hguess hdec hout

/-- Witness for C4 (amended): a `dst`-marked outbound message is excluded;
a non-decoding body before the correct one does not change the correlated
output; the full run correlates the sample transfer call. -/
theorem c4_output_correlation_witness :
    extTxOutBodies [.obj [("dst", .str "0:0011"), ("body", .str "AAAACAk=")]] =
        extTxOutBodies [] ∧
      processRawOutputs
          [bytesToBits [0, 0, 0, 255], bytesToBits [0, 0, 0, 8, 9]] fnA =
        .ok [.uintV 8 9] ∧
      decodeTransaction
          (.obj [("inMessage", .obj [("src", .str "0:2222"), ("body", .str "AAAABwU=")]),
                 ("outMessages", .arr [.obj [("body", .str "AAAACAk=")]])])
          sampleAbi (.known "transfer") =
        match extTxOutBodies [.obj [("body", .str "AAAACAk=")]] with
        | .error e => .error e
        | .ok ext =>
          match processRawOutputs ext fnA with
          | .error e => .error e
          | .ok output =>
            .ok (some { method := fnA.name, input := [.uintV 8 5], output := output }) := by
  have h := c4_output_correlation sampleAbi (.known "transfer")
  refine ⟨h.1 (.obj [("dst", .str "0:0011"), ("body", .str "AAAACAk=")]) [] "0:0011" rfl,
    ?_, ?_⟩
  · have := h.2.1 fnA [bytesToBits [0, 0, 0, 255]] [] (bytesToBits [0, 0, 0, 8, 9])
      [.uintV 8 9] ?_ rfl
    · simpa using this
    · intro b hb
      simp only [List.mem_singleton] at hb
      rw [hb]
      rfl
  · exact h.2.2
      (.obj [("inMessage", .obj [("src", .str "0:2222"), ("body", .str "AAAABwU=")]),
             ("outMessages", .arr [.obj [("body", .str "AAAACAk=")]])])
      (.obj [("src", .str "0:2222"), ("body", .str "AAAABwU=")])
      (.str "0:2222") "AAAABwU=" (bytesToBits [0, 0, 0, 7, 5]) fnA [.uintV 8 5]
      [.obj [("body", .str "AAAACAk=")]] rfl rfl rfl rfl rfl rfl rfl rfl rfl

/-- Counterexample to C4 as stated: the only outbound message of this
transaction carries a source-address string (and no destination marker),
yet its body supplies the correlated output — the code filters on the
destination marker, not on the source marker as the claim says (under the
claim the output could not come from this source-marked message, and
correlation of `transfer`'s non-empty outputs would fail). -/
theorem c4_counterexample :
    decodeTransaction
        (.obj [("inMessage", .obj [("src", .str "0:2222"), ("body", .str "AAAABwU=")]),
               ("outMessages", .arr
                 [.obj [("src", .str "0:0011"), ("body", .str "AAAACAk=")]])])
        sampleAbi (.known "transfer") =
      .ok (some { method := "transfer", input := [.uintV 8 5],
                  output := [.uintV 8 9] }) ∧
      (JVal.str "0:0011").isString = true := by
  exact ⟨rfl, rfl⟩

/-- C8 -- `decode_transaction` requires a well-formed transaction view and
reports a typed boundary-validation error when a required field is absent:
a non-object transaction, a non-object inbound message, a non-array
outbound message list (reached once a method has been guessed), and a
missing body string on a kept (destination-unmarked) outbound message each
produce their typed error rather than a panic or a silent result. -/
theorem c8_boundary_validation (abi : ContractAbi) (hint : MethodName) :
    (∀ tx, tx.isObject = false → decodeTransaction tx abi hint = .error .objectExpected) ∧
      (∀ tx in_msg, tx.isObject = true → jsGet tx "inMessage" = .ok in_msg →
        in_msg.isObject = false →
        decodeTransaction tx abi hint = .error .messageExpected) ∧
      (∀ tx in_msg srcv bstr body f input out_msgs,
        tx.isObject = true → jsGet tx "inMessage" = .ok in_msg →
        in_msg.isObject = true → jsGet in_msg "src" = .ok srcv →
        jsGet in_msg "body" = .ok (.str bstr) → parseSlice bstr = .ok body →
        guessMethodByInput abi body hint srcv.isString = .ok (some f) →
        functionDecodeInput f body srcv.isString = some input →
        jsGet tx "outMessages" = .ok out_msgs → out_msgs.isArray = false →
        decodeTransaction tx abi hint = .error .arrayExpected) ∧
      (∀ m ms v bodyV, jsGet m "dst" = .ok v → v.isString = false →
        jsGet m "body" = .ok bodyV → bodyV.asString = none →
        extTxOutBodies (m :: ms) = .error .messageBodyExpected) ∧
      (∀ tx in_msg srcv bstr body f input ms,
        tx.isObject = true → jsGet tx "inMessage" = .ok in_msg →
        in_msg.isObject = true → jsGet in_msg "src" = .ok srcv →
        jsGet in_msg "body" = .ok (.str bstr) → parseSlice bstr = .ok body →
        guessMethodByInput abi body hint srcv.isString = .ok (some f) →
        functionDecodeInput f body srcv.isString = some input →
        jsGet tx "outMessages" = .ok (.arr ms) →
        extTxOutBodies ms = .error .messageBodyExpected →
        decodeTransaction tx abi hint = .error .messageBodyExpected) := by
  refine ⟨?_, ?_, ?_, ?_, ?_⟩
  · intro tx hobj
    simp [decodeTransaction, hobj]
  · intro tx in_msg hobj hin hinobj
    simp [decodeTransaction, hobj, hin, hinobj]
  · intro tx in_msg srcv bstr body f input out_msgs hobj hin hinobj hsrc hbody hparse
      hguess hdec hout harr
    cases out_msgs with
    | arr ms => exact absurd harr (by simp [JVal.isArray])
    | null =>
      simp [decodeTransaction, hobj, hin, hinobj, hsrc, hbody, hparse,
        JVal.asString, hguess, hdec, hout]
    | str s =>
      simp [decodeTransaction, hobj, hin, hinobj, hsrc, hbody, hparse,
        JVal.asString, hguess, hdec, hout]
    | obj fields =>
      simp [decodeTransaction, hobj, hin, hinobj, hsrc, hbody, hparse,
        JVal.asString, hguess, hdec, hout]
  · intro m ms v bodyV hdst hnstr hbody hnone
    simp [extTxOutBodies, hdst, hnstr, hbody, hnone]
  · intro tx in_msg srcv bstr body f input ms hobj hin hinobj hsrc hbody hparse
      hguess hdec hout hext
    rw [decodeTransaction_run abi hint tx in_msg srcv bstr body f input ms hobj hin
      hinobj hsrc hbody hparse hguess hdec hout, hext]

/-- Witness for C8: each malformed transaction shape yields its typed
error on concrete inputs. -/
theorem c8_boundary_validation_witness :
    decodeTransaction (.str "tx") sampleAbi (.known "transfer") =
        .error .objectExpected ∧
      decodeTransaction (.obj [("inMessage", .str "msg")]) sampleAbi
          (.known "transfer") = .error .messageExpected ∧
      decodeTransaction
          (.obj [("inMessage", .obj [("src", .str "0:2222"), ("body", .str "AAAABwU=")]),
                 ("outMessages", .null)])
          sampleAbi (.known "transfer") = .error .arrayExpected ∧
      extTxOutBodies [.obj []] = .error .messageBodyExpected ∧
      decodeTransaction
          (.obj [("inMessage", .obj [("src", .str "0:2222"), ("body", .str "AAAABwU=")]),
                 ("outMessages", .arr [.obj []])])
          sampleAbi (.known "transfer") = .error .messageBodyExpected := by
  have h := c8_boundary_validation sampleAbi (.known "transfer")
  refine ⟨h.1 (.str "tx") rfl,
    h.2.1 (.obj [("inMessage", .str "msg")]) (.str "msg") rfl rfl rfl,
    h.2.2.1
      (.obj [("inMessage", .obj [("src", .str "0:2222"), ("body", .str "AAAABwU=")]),
             ("outMessages", .null)])
      (.obj [("src", .str "0:2222"), ("body", .str "AAAABwU=")]) (.str "0:2222")
      "AAAABwU=" (bytesToBits [0, 0, 0, 7, 5]) fnA [.uintV 8 5] .null
      rfl rfl rfl rfl rfl rfl rfl rfl rfl rfl,
    h.2.2.2.1 (.obj []) [] .null .null rfl rfl rfl rfl,
    h.2.2.2.2
      (.obj [("inMessage", .obj [("src", .str "0:2222"), ("body", .str "AAAABwU=")]),
             ("outMessages", .arr [.obj []])])
      (.obj [("src", .str "0:2222"), ("body", .str "AAAABwU=")]) (.str "0:2222")
      "AAAABwU=" (bytesToBits [0, 0, 0, 7, 5]) fnA [.uintV 8 5] [.obj []]
      rfl rfl rfl rfl rfl rfl rfl rfl rfl rfl⟩

/-- C6 -- For every destination, contract function, valid arguments and
timeout, with the clock reading `time` milliseconds,
`create_unsigned_message_without_signature` builds a message whose expire
timestamp is `time + timeout` (timeout in milliseconds) truncated to
protocol time units (unix seconds), and whose body starts with an empty
signature slot followed by exactly the headers
{`time`: `time`, `expire`: that expiration, `pubkey`: none}. -/
theorem c6_unsigned_message_headers (dst : Address) (abi : ContractAbi)
    (method : String) (si : Option StateInit) (input : List TokenValue)
    (timeout time : Nat) (f : FunctionAbi)
    (hf : abi.functionByName method = some f)
    (hv : validTokens input f.inputTypes = true)
    (hbound : time + timeout < 2 ^ 32 * 1000) :
    ∃ sm, createUnsignedMessageWithoutSignature dst abi method si input timeout time =
        .ok sm ∧
      sm.expire_at * 1000 ≤ time + timeout ∧
      time + timeout < sm.expire_at * 1000 + 1000 ∧
      sm.message.dst = dst ∧ sm.message.state_init = si ∧
      sm.message.body =
        false :: ((natToBits 64 time ++ natToBits 32 sm.expire_at ++ [false]) ++
          (natToBits 32 f.input_id ++ encodeTokens input)) := by
  have hdivlt : (time + timeout) / 1000 < 2 ^ 32 :=
    Nat.div_lt_of_lt_mul (by omega)
  have hexp : expireTimestamp timeout time = (time + timeout) / 1000 := by
    unfold expireTimestamp
    exact Nat.mod_eq_of_lt hdivlt
  have hhb : headerBits
      [("time", .timeV time), ("expire", .expireV (expireTimestamp timeout time)),
       ("pubkey", .pubkeyV none)] =
      some (natToBits 64 time ++ natToBits 32 (expireTimestamp timeout time) ++
        [false]) := by
    rfl
  have hbody : encodeInputBody f
      [("time", .timeV time), ("expire", .expireV (expireTimestamp timeout time)),
       ("pubkey", .pubkeyV none)] input false none =
      some (false :: ((natToBits 64 time ++ natToBits 32 (expireTimestamp timeout time)
        ++ [false]) ++ (natToBits 32 f.input_id ++ encodeTokens input))) := by
    simp [encodeInputBody, hhb, List.append_assoc]
  have hok : createUnsignedMessageWithoutSignature dst abi method si input timeout time =
      .ok ⟨⟨dst, si, false :: ((natToBits 64 time ++
          natToBits 32 (expireTimestamp timeout time) ++ [false]) ++
          (natToBits 32 f.input_id ++ encodeTokens input))⟩,
        expireTimestamp timeout time⟩ := by
    simp [createUnsignedMessageWithoutSignature, hf, hv, hbody]
  refine ⟨_, hok, ?_, ?_, rfl, rfl, rfl⟩
  · show expireTimestamp timeout time * 1000 ≤ time + timeout
    rw [hexp]
    have := Nat.div_add_mod (time + timeout) 1000
    have := Nat.mod_lt (time + timeout) (y := 1000) (by omega)
    omega
  · show time + timeout < expireTimestamp timeout time * 1000 + 1000
    rw [hexp]
    have := Nat.div_add_mod (time + timeout) 1000
    have := Nat.mod_lt (time + timeout) (y := 1000) (by omega)
    omega

/-- Witness for C6: `timeout = 60000` and clock reading `1000` give an
expire timestamp of 61 seconds, with the exact header bits in the body. -/
theorem c6_unsigned_message_headers_witness :
    ∃ sm, createUnsignedMessageWithoutSignature ⟨0, 0⟩ sampleAbi "transfer" none
        [.uintV 8 5] 60000 1000 = .ok sm ∧
      sm.expire_at * 1000 ≤ 61000 ∧ 61000 < sm.expire_at * 1000 + 1000 := by
  obtain ⟨sm, hok, hlo, hhi, -⟩ := c6_unsigned_message_headers ⟨0, 0⟩ sampleAbi
    "transfer" none [.uintV 8 5] 60000 1000 fnA rfl rfl (by norm_num)
  exact ⟨sm, hok, hlo, hhi⟩

/-- C7 -- `verify_signature` returns the `InvalidLength`-style errors
exactly when the decoded data hash is not 32 bytes or the decoded signature
is not 64 bytes; with a well-formed 32-byte hash and 64-byte signature it
returns `Ok` of the verification capability's boolean answer — a
cryptographic verification failure is `Ok(false)`, never an error, and a
matching valid signature is `Ok(true)`. -/
theorem c7_verify_signature_lengths (verify : List Nat → List Nat → List Nat → Bool)
    (pks dhs sgs : String) (pk dh sg : List Nat)
    (hpk : parsePublicKey pks = .ok pk) :
    (decodeDataHash dhs = .ok dh → dh.length ≠ 32 →
      verifySignature verify pks dhs sgs = .error .invalidDataHashLength) ∧
      (decodeDataHash dhs = .ok dh → dh.length = 32 →
        decodeSignature sgs = .ok sg → sg.length ≠ 64 →
        verifySignature verify pks dhs sgs = .error .invalidSignatureLength) ∧
      (decodeDataHash dhs = .ok dh → dh.length = 32 →
        decodeSignature sgs = .ok sg → sg.length = 64 →
        verifySignature verify pks dhs sgs = .ok (verify pk dh sg)) := by
  refine ⟨?_, ?_, ?_⟩
  · intro hdh hlen
    simp [verifySignature, hpk, hdh, hlen]
  · intro hdh hlen hsg hslen
    simp [verifySignature, hpk, hdh, hlen, hsg, hslen]
  · intro hdh hlen hsg hslen
    simp [verifySignature, hpk, hdh, hlen, hsg, hslen]

/-- Witness for C7 at concrete strings: a 2-byte hash is rejected with the
length error; a 3-byte signature is rejected with the length error; with a
32-byte hash and 64-byte signature the result is exactly the capability's
answer (`Ok false` here, under a capability that rejects the zero
signature). -/
theorem c7_verify_signature_lengths_witness :
    verifySignature (fun _ _ sg => sg.headD 0 == 9)
        (String.mk (List.replicate 64 '0')) "0011" "AAAA" =
      .error .invalidDataHashLength ∧
      verifySignature (fun _ _ sg => sg.headD 0 == 9)
          (String.mk (List.replicate 64 '0'))
          (String.mk (List.replicate 64 '1')) "AAAA" =
        .error .invalidSignatureLength ∧
      verifySignature (fun _ _ sg => sg.headD 0 == 9)
          (String.mk (List.replicate 64 '0'))
          (String.mk (List.replicate 64 '1'))
          (String.mk (List.replicate 86 'A' ++ ['=', '='])) =
        .ok false := by
  have h1 := c7_verify_signature_lengths (fun _ _ sg => sg.headD 0 == 9)
    (String.mk (List.replicate 64 '0')) "0011" "AAAA"
    (List.replicate 32 0) [0, 17] [0, 0, 0] rfl
  have h2 := c7_verify_signature_lengths (fun _ _ sg => sg.headD 0 == 9)
    (String.mk (List.replicate 64 '0')) (String.mk (List.replicate 64 '1')) "AAAA"
    (List.replicate 32 0) (List.replicate 32 17) [0, 0, 0] rfl
  have h3 := c7_verify_signature_lengths (fun _ _ sg => sg.headD 0 == 9)
    (String.mk (List.replicate 64 '0')) (String.mk (List.replicate 64 '1'))
    (String.mk (List.replicate 86 'A' ++ ['=', '=']))
    (List.replicate 32 0) (List.replicate 32 17) (List.replicate 64 0) rfl
  refine ⟨h1.1 rfl (by decide), h2.2.1 rfl (by decide) rfl (by decide), ?_⟩
  have h4 := h3.2.2 rfl (by decide) rfl (by decide)
  exact h4.trans rfl

/-- C9 -- Frame property of `get_expected_address`: only the `data` field
of the parsed state-init is modified (replaced by the insertion result);
`code`, `split_depth`, `special` and `library` reach the hash exactly as
parsed; and when the parsed state-init has no data, no insertion is
attempted (the result does not depend on the insertion function at all) and
the hash is computed with `data` absent. -/
theorem c9_get_expected_address_frame (hash : StateInit → Nat)
    (insert : Bits → Except AbiError Bits) (s : StateInit) (wc : Int) :
    (∀ s', applyInitData insert s = .ok s' →
      s'.code = s.code ∧ s'.split_depth = s.split_depth ∧ s'.special = s.special ∧
        s'.library = s.library ∧
        (∀ d, s.data = some d → ∃ d', insert d = .ok d' ∧ s'.data = some d') ∧
        getExpectedAddress hash insert s wc = .ok ⟨wc, hash s'⟩) ∧
      (s.data = none →
        applyInitData insert s = .ok s ∧
        ∀ insert2, getExpectedAddress hash insert2 s wc = .ok ⟨wc, hash s⟩) := by
  constructor
  · intro s' happ
    cases hd : s.data with
    | none =>
      simp only [applyInitData, hd] at happ
      obtain rfl := (Except.ok.inj happ).symm
      refine ⟨rfl, rfl, rfl, rfl, ?_, ?_⟩
      · intro d hdd
        exact absurd hdd (by simp)
      · simp [getExpectedAddress, applyInitData, hd]
    | some d =>
      simp only [applyInitData, hd] at happ
      cases hins : insert d with
      | error e => rw [hins] at happ; exact absurd happ (by simp)
      | ok d' =>
        rw [hins] at happ
        obtain rfl := (Except.ok.inj happ).symm
        refine ⟨rfl, rfl, rfl, rfl, ?_, ?_⟩
        · intro d0 hdd
          obtain rfl := Option.some.inj hdd
          exact ⟨d', hins, rfl⟩
        · simp [getExpectedAddress, applyInitData, hd, hins]
  · intro hd
    have happ : applyInitData insert s = .ok s := by
      have : ({ s with data := none } : StateInit) = s := by
        cases s
        simp_all
      simp [applyInitData, hd, this]
    refine ⟨happ, ?_⟩
    intro insert2
    have happ2 : applyInitData insert2 s = .ok s := by
      have : ({ s with data := none } : StateInit) = s := by
        cases s
        simp_all
      simp [applyInitData, hd, this]
    simp [getExpectedAddress, happ2]

/-- Witness for C9: with a concrete hash and insertion function, the code
field survives unchanged and a data-less state-init ignores the insertion
function. -/
theorem c9_get_expected_address_frame_witness :
    (applyInitData (fun b => .ok (true :: b))
        ⟨some 1, none, some [true], some [false], none⟩ =
      .ok ⟨some 1, none, some [true], some [true, false], none⟩ →
      (⟨some 1, none, some [true], some [true, false], none⟩ : StateInit).code =
        some [true]) ∧
      getExpectedAddress (fun s => s.code.elim 0 List.length)
          (fun _ => .error .encodeFailed)
          ⟨some 1, none, some [true], none, none⟩ 0 =
        .ok ⟨0, 1⟩ := by
  constructor
  · intro h
    exact ((c9_get_expected_address_frame (fun s => s.code.elim 0 List.length)
      (fun b => .ok (true :: b)) ⟨some 1, none, some [true], some [false], none⟩ 0).1
      _ h).1
  · exact ((c9_get_expected_address_frame (fun s => s.code.elim 0 List.length)
      (fun b => .ok (true :: b)) ⟨some 1, none, some [true], none, none⟩ 0).2
      rfl).2 (fun _ => .error .encodeFailed)

/-- C10 -- In `verify_signature` the two text decodings are tried in a
fixed asymmetric order: the data hash is decoded as hex first with base64
as the fallback, the signature as base64 first with hex as the fallback;
the first-tried decoder's success is used even when the other decoder would
also succeed, and when both decoders fail the error surfaced is the one
produced by the first-tried decoder (the hex error for the data hash, the
base64 error for the signature). -/
theorem c10_decode_fallback_order (verify : List Nat → List Nat → List Nat → Bool)
    (pks dhs sgs : String) (pk : List Nat) (hpk : parsePublicKey pks = .ok pk) :
    (∀ d, hexDecode dhs = .ok d → decodeDataHash dhs = .ok d) ∧
      (∀ e1 e2, hexDecode dhs = .error e1 → base64Decode dhs = .error e2 →
        verifySignature verify pks dhs sgs = .error (.invalidHex e1)) ∧
      (∀ s, base64Decode sgs = .ok s → decodeSignature sgs = .ok s) ∧
      (∀ dh e1 e2, decodeDataHash dhs = .ok dh → dh.length = 32 →
        base64Decode sgs = .error e1 → hexDecode sgs = .error e2 →
        verifySignature verify pks dhs sgs = .error (.invalidBase64 e1)) := by
  refine ⟨?_, ?_, ?_, ?_⟩
  · intro d hd
    simp [decodeDataHash, hd]
  · intro e1 e2 h1 h2
    simp [verifySignature, hpk, decodeDataHash, h1, h2]
  · intro s hs
    simp [decodeSignature, hs]
  · intro dh e1 e2 hdh hlen h1 h2
    simp [verifySignature, hpk, hdh, hlen, decodeSignature, h1, h2]

/-- Witness for C10: `"!!"` fails both decoders, so the data hash surfaces
the hex error and the signature the base64 error; `"0011"` decodes as hex
even though it is also valid base64. -/
theorem c10_decode_fallback_order_witness :
    decodeDataHash "0011" = .ok [0, 17] ∧
      verifySignature (fun _ _ _ => true) (String.mk (List.replicate 64 '0'))
          "!!" "AAAA" = .error (.invalidHex (.invalidChar '!')) ∧
      decodeSignature "AAAA" = .ok [0, 0, 0] ∧
      verifySignature (fun _ _ _ => true) (String.mk (List.replicate 64 '0'))
          (String.mk (List.replicate 64 '1')) "!!" =
        .error (.invalidBase64 (.invalidByte '!')) := by
  have h0 := c10_decode_fallback_order (fun _ _ _ => true)
    (String.mk (List.replicate 64 '0')) "0011" "AAAA" (List.replicate 32 0) rfl
  have h1 := c10_decode_fallback_order (fun _ _ _ => true)
    (String.mk (List.replicate 64 '0')) "!!" "AAAA" (List.replicate 32 0) rfl
  have h2 := c10_decode_fallback_order (fun _ _ _ => true)
    (String.mk (List.replicate 64 '0')) (String.mk (List.replicate 64 '1')) "!!"
    (List.replicate 32 0) rfl
  exact ⟨h0.1 [0, 17] rfl, h1.2.1 (.invalidChar '!') (.invalidByte '!') rfl rfl,
    h0.2.2.1 [0, 0, 0] rfl,
    h2.2.2.2 (List.replicate 32 17) (.invalidByte '!') (.invalidChar '!') rfl
      (by decide) rfl rfl⟩

/-- Witness for C1 at a concrete contract: one function `transfer(amount:
uint8)` with selector 7, argument list `[5]`, both modes. -/
theorem c1_encode_decode_roundtrip_witness :
    (validTokens [.uintV 8 5]
        (FunctionAbi.inputTypes ⟨"transfer", [⟨"amount", .uint 8⟩], [], 7, 8⟩) = true) ∧
      (∃ body,
        encodeInputBody ⟨"transfer", [⟨"amount", .uint 8⟩], [], 7, 8⟩
          [("time", .timeV 3), ("expire", .expireV 4), ("pubkey", .pubkeyV none)]
          [.uintV 8 5] false none = some body ∧
        functionDecodeInput ⟨"transfer", [⟨"amount", .uint 8⟩], [], 7, 8⟩ body false =
          some [.uintV 8 5]) := by
  refine ⟨rfl, ?_⟩
  exact (c1_encode_decode_roundtrip
    ⟨[⟨"transfer", [⟨"amount", .uint 8⟩], [], 7, 8⟩], []⟩
    ⟨"transfer", [⟨"amount", .uint 8⟩], [], 7, 8⟩
    [("time", .timeV 3), ("expire", .expireV 4), ("pubkey", .pubkeyV none)]
    [.uintV 8 5] false rfl (by norm_num) rfl rfl).1

end NekotonWasm
